import Mathlib

/-!
Shallow embedding of the PostHog analytics anonymization/redaction pipeline
(src/PosthogAnalytics.ts).  Pure functions of the source become Lean functions;
the stateful class becomes explicit state passing; the calls the pipeline makes
on the external sink (posthog-js) are recorded as an explicit event trace; the
fallible external digest primitive (window.crypto.subtle.digest) is a parameter
returning Except, and every async method of the source returns its effects
together with an optional error (the rejection of its promise).
-/

/-- The two anonymity tiers (enum Anonymity in the source). -/
inductive Anonymity where
  | Anonymous
  | Pseudonymous
deriving DecidableEq, Repr

/-- A property value as stored in a posthog properties object: a string or null. -/
inductive Val where
  | vStr (s : String)
  | vNull
deriving DecidableEq, Repr

/-- A posthog properties object: a partial map from keys to values
(none = key absent). -/
def Props : Type := String → Option Val

/-- JS property assignment properties[k] = v. -/
def setProp (properties : Props) (k : String) (v : Val) : Props :=
  fun k' => if k' = k then some v else properties k'

/-- JS single-character String.prototype.split: "a//b".split("/") = ["a","","b"],
"".split("/") = [""].  Defined on the character list. -/
def splitChars (sep : Char) : List Char → List (List Char)
  | [] => [[]]
  | c :: cs =>
    let r := splitChars sep cs
    if c = sep then [] :: r
    else
      match r with
      | [] => [[c]]
      | g :: gs => (c :: g) :: gs

/-- hash.split("/") of the source (always splits on the slash character). -/
def splitJS (s : String) : List String :=
  (splitChars '/' s.data).map (fun l => String.mk l)

/-- parts.join("/") of the source. -/
def joinSlash : List String → String
  | [] => ""
  | [x] => x
  | x :: xs => x ++ "/" ++ joinSlash xs

/-- JS String.prototype.startsWith. -/
def startsWithJS (s pre : String) : Bool :=
  pre.data.isPrefixOf s.data

/-- UTF-8 bytes of one character, as produced by TextEncoder. -/
def utf8Bytes (c : Char) : List Nat :=
  let n := c.toNat
  if n < 0x80 then [n]
  else if n < 0x800 then [0xC0 + n / 64, 0x80 + n % 64]
  else if n < 0x10000 then [0xE0 + n / 4096, 0x80 + (n / 64) % 64, 0x80 + n % 64]
  else [0xF0 + n / 262144, 0x80 + (n / 4096) % 64, 0x80 + (n / 64) % 64, 0x80 + n % 64]

/-- new TextEncoder().encode(input): the UTF-8 byte sequence of the string. -/
def textEncode (s : String) : List Nat :=
  (s.data.map utf8Bytes).flatten

/-- One lower-case hex digit. -/
def hexDigit (n : Nat) : Char :=
  if n < 10 then Char.ofNat (48 + n) else Char.ofNat (87 + n)

/-- b.toString(16).padStart(2, "0") for a byte value. -/
def byteToHex (b : Nat) : String :=
  String.mk [hexDigit (b / 16 % 16), hexDigit (b % 16)]

/-- The hex encoding of a byte sequence (map byteToHex, then join("")). -/
def bytesToHex (bs : List Nat) : String :=
  String.join (bs.map byteToHex)

/-- The external digest primitive window.crypto.subtle.digest("sha-256", ·).
It is a parameter of the whole development: a function from the input byte
sequence to either the digest bytes or a failure (a rejected promise). -/
def Digest : Type := List Nat → Except String (List Nat)

/-- hashHex of the source: UTF-8 encode, digest, then hex-encode the digest
bytes.  A digest rejection rejects the whole computation. -/
def hashHex (digest : Digest) (input : String) : Except String String :=
  match digest (textEncode input) with
  | Except.error e => Except.error e
  | Except.ok digestBuf => Except.ok (bytesToHex digestBuf)

/-- The knownScreens allow-list of the source. -/
def knownScreens : List String :=
  ["register", "login", "forgot_password", "soft_logout", "new", "settings",
   "welcome", "home", "start", "directory", "start_sso", "start_cas", "groups",
   "complete_security", "post_registration", "room", "user", "group"]

/-- The for-loop of getRedactedCurrentLocation over the trailing parts:
each part becomes the fixed marker under Anonymous and hashHex(part) under
Pseudonymous; a digest rejection aborts the computation. -/
def redactParts (digest : Digest) (anonymity : Anonymity) :
    List String → Except String (List String)
  | [] => Except.ok []
  | p :: ps =>
    match (match anonymity with
           | Anonymity.Anonymous => Except.ok "<redacted>"
           | Anonymity.Pseudonymous => hashHex digest p) with
    | Except.error e => Except.error e
    | Except.ok r =>
      match redactParts digest anonymity ps with
      | Except.error e => Except.error e
      | Except.ok rs => Except.ok (r :: rs)

/-- getRedactedCurrentLocation of the source.  The fragment is split on "/";
the first piece is kept, the second piece is the screen name (replaced by a
placeholder unless it is a known screen; an absent second piece is undefined,
which is not in the set, so it also becomes the placeholder), and the
remaining pieces are redacted per tier.  A file:// origin replaces the
pathname by a fixed placeholder. -/
def getRedactedCurrentLocation (digest : Digest)
    (origin hash pathname : String) (anonymity : Anonymity) :
    Except String String :=
  let pathname := if startsWithJS origin "file://" then "/<redacted_file_scheme_url>/" else pathname
  let pieces := splitJS hash
  let u := pieces.headD ""
  let parts := pieces.drop 2
  let screen :=
    match pieces[1]? with
    | some sc => if knownScreens.contains sc then sc else "<redacted_screen_name>"
    | none => "<redacted_screen_name>"
  match redactParts digest anonymity parts with
  | Except.error e => Except.error e
  | Except.ok ps =>
    Except.ok (origin ++ pathname ++ (u ++ "/" ++ screen ++ "/" ++ joinSlash ps))

/-- The mutable fields of the PosthogAnalytics class (the posthog handle itself
is the external sink, represented by the event trace instead). -/
structure AnalyticsState where
  onlyTrackAnonymousEvents : Bool
  initialised : Bool
  redactedCurrentLocation : Option String
deriving Repr

/-- The field initializers of the class. -/
def initialState : AnalyticsState :=
  { onlyTrackAnonymousEvents := false, initialised := false,
    redactedCurrentLocation := none }

/-- The browser environment the pipeline reads: the do-not-track signal
(navigator.doNotTrack === "1"), whether SdkConfig has a posthog section, and
window.location's origin, hash and pathname. -/
structure Env where
  doNotTrack : Bool
  posthogConfig : Bool
  origin : String
  hash : String
  pathname : String

/-- Observable events of a pipeline method: a write to the
redactedCurrentLocation cache, a (synchronous) run of the sanitize hook
recording the cache value it read, and the three sink operations.  sinkInit
and sinkCapture carry the sanitized properties the sink receives (the sink
invokes the sanitize hook synchronously before transmitting). -/
inductive Ev where
  | cacheUpdate (loc : String)
  | sanitizeRun (cacheRead : Option String)
  | sinkInit (pageviewProps : Props)
  | sinkCapture (eventName : String) (properties : Props)
  | sinkIdentify (id : String)

/-- The value assigned to properties["$current_url"]: the cache content,
null when the cache was never written. -/
def locToVal : Option String → Val
  | some s => Val.vStr s
  | none => Val.vNull

/-- sanitizeProperties of the source (the second argument, the event name, is
unused there as well).  Overwrites $current_url with the cached redacted
location and, when only anonymous tracking is allowed, nulls the four
referrer fields and the device id. -/
def sanitizeProperties (st : AnalyticsState) (properties : Props) (_ : String) : Props :=
  let properties := setProp properties "$current_url" (locToVal st.redactedCurrentLocation)
  if st.onlyTrackAnonymousEvents then
    let properties := setProp properties "$referrer" Val.vNull
    let properties := setProp properties "$referring_domain" Val.vNull
    let properties := setProp properties "$initial_referrer" Val.vNull
    let properties := setProp properties "$initial_referring_domain" Val.vNull
    setProp properties "$device_id" Val.vNull
  else properties

/-- The tier the source selects when recomputing the redacted location:
this.onlyTrackAnonymousEvents ? Anonymity.Anonymous : Anonymity.Pseudonymous. -/
def currentAnonymity (st : AnalyticsState) : Anonymity :=
  if st.onlyTrackAnonymousEvents then Anonymity.Anonymous else Anonymity.Pseudonymous

/-- updateRedactedCurrentLocation of the source.  Note: the method takes no
anonymity parameter; it always derives the tier from the
onlyTrackAnonymousEvents flag.  Returns the updated state and the location
written, or the rejection of the inner digest. -/
def updateRedactedCurrentLocation (digest : Digest) (env : Env)
    (st : AnalyticsState) : Except String (AnalyticsState × String) :=
  match getRedactedCurrentLocation digest env.origin env.hash env.pathname
      (currentAnonymity st) with
  | Except.error e => Except.error e
  | Except.ok loc =>
    Except.ok ({ st with redactedCurrentLocation := some loc }, loc)

/-- Result of an async method: the state after it settles, the trace of
observable events it produced, and the error its promise rejected with, if
any. -/
def MethodResult : Type := AnalyticsState × List Ev × Option String

/-- capture of the source.  The anonymity argument is accepted (the source
passes one) but, exactly as in the source, it is never used:
updateRedactedCurrentLocation takes no parameter, so in JS the extra argument
is ignored and the tier flag decides the redaction.  When initialised, the
recompute is awaited, then posthog.capture runs the sanitize hook
synchronously and receives the sanitized properties. -/
def capture (digest : Digest) (env : Env) (st : AnalyticsState)
    (eventName : String) (properties : Props) (anonymity : Anonymity) :
    MethodResult :=
  if st.initialised = false then (st, [], none)
  else
    match updateRedactedCurrentLocation digest env st with
    | Except.error e => (st, [], some e)
    | Except.ok (st', loc) =>
      (st',
       [Ev.cacheUpdate loc,
        Ev.sanitizeRun st'.redactedCurrentLocation,
        Ev.sinkCapture eventName (sanitizeProperties st' properties eventName)],
       none)

/-- init of the source.  A do-not-track signal leaves the pipeline
uninitialised; otherwise the flag is stored and, when a posthog config
exists, the redacted location is recomputed and awaited before posthog.init,
whose immediate pageview event runs the sanitize hook; only then is
initialised set. -/
def init (digest : Digest) (env : Env) (st : AnalyticsState)
    (onlyTrackAnonymousEvents : Bool) (pageviewProps : Props) : MethodResult :=
  if env.doNotTrack then ({ st with initialised := false }, [], none)
  else
    let st := { st with onlyTrackAnonymousEvents := onlyTrackAnonymousEvents }
    if env.posthogConfig then
      match updateRedactedCurrentLocation digest env st with
      | Except.error e => (st, [], some e)
      | Except.ok (st', loc) =>
        ({ st' with initialised := true },
         [Ev.cacheUpdate loc,
          Ev.sanitizeRun st'.redactedCurrentLocation,
          Ev.sinkInit (sanitizeProperties st' pageviewProps "$pageview")],
         none)
    else (st, [], none)

/-- identifyUser of the source: suppressed entirely by the tier flag;
otherwise hashes the user id (a rejection rejects the call) and hands the
digest to the sink's identify.  Note: it does not consult initialised. -/
def identifyUser (digest : Digest) (st : AnalyticsState) (userId : String) :
    MethodResult :=
  if st.onlyTrackAnonymousEvents then (st, [], none)
  else
    match hashHex digest userId with
    | Except.error e => (st, [], some e)
    | Except.ok h => (st, [Ev.sinkIdentify h], none)

/-- isInitialised of the source. -/
def isInitialised (st : AnalyticsState) : Bool :=
  st.initialised

/-- setOnlyTrackAnonymousEvents of the source. -/
def setOnlyTrackAnonymousEvents (st : AnalyticsState) (enabled : Bool) :
    AnalyticsState :=
  { st with onlyTrackAnonymousEvents := enabled }

/-- trackPseudonymousEvent of the source.  The inner this.capture(...) is not
awaited, so its rejection is not propagated to the caller; its effects still
happen.  (The source writes the misspelled member Anonymity.Pseudonyomous,
which is undefined at runtime; the argument is ignored by capture anyway.) -/
def trackPseudonymousEvent (digest : Digest) (env : Env) (st : AnalyticsState)
    (eventName : String) (properties : Props) : MethodResult :=
  if st.onlyTrackAnonymousEvents then (st, [], none)
  else
    match capture digest env st eventName properties Anonymity.Pseudonymous with
    | (st', evs, _) => (st', evs, none)

/-- trackAnonymousEvent of the source.  The inner this.capture(...) is again
not awaited. -/
def trackAnonymousEvent (digest : Digest) (env : Env) (st : AnalyticsState)
    (eventName : String) (properties : Props) : MethodResult :=
  match capture digest env st eventName properties Anonymity.Anonymous with
  | (st', evs, _) => (st', evs, none)

/-- trackRoomEvent of the source: awaits hashHex(roomId) when roomId is truthy
(the empty string is falsy, giving null), attaches it as hashedRoomId, then
calls trackPseudonymousEvent without awaiting it. -/
def trackRoomEvent (digest : Digest) (env : Env) (st : AnalyticsState)
    (eventName roomId : String) (properties : Props) : MethodResult :=
  match (if roomId = "" then Except.ok Val.vNull
         else match hashHex digest roomId with
              | Except.error e => Except.error e
              | Except.ok h => Except.ok (Val.vStr h)) with
  | Except.error e => (st, [], some e)
  | Except.ok v =>
    let updatedProperties := setProp properties "hashedRoomId" v
    match trackPseudonymousEvent digest env st eventName updatedProperties with
    | (st', evs, _) => (st', evs, none)

/-- The public operations of the pipeline, for reasoning about call
sequences. -/
inductive Call where
  | cInit (onlyTrackAnonymousEvents : Bool) (pageviewProps : Props)
  | cTrackAnonymousEvent (eventName : String) (properties : Props)
  | cTrackPseudonymousEvent (eventName : String) (properties : Props)
  | cTrackRoomEvent (eventName roomId : String) (properties : Props)
  | cIdentifyUser (userId : String)
  | cSetOnlyTrackAnonymousEvents (enabled : Bool)

/-- Run one public operation. -/
def runCall (digest : Digest) (env : Env) (st : AnalyticsState) :
    Call → MethodResult
  | Call.cInit b p => init digest env st b p
  | Call.cTrackAnonymousEvent n p => trackAnonymousEvent digest env st n p
  | Call.cTrackPseudonymousEvent n p => trackPseudonymousEvent digest env st n p
  | Call.cTrackRoomEvent n rid p => trackRoomEvent digest env st n rid p
  | Call.cIdentifyUser uid => identifyUser digest st uid
  | Call.cSetOnlyTrackAnonymousEvents b => (setOnlyTrackAnonymousEvents st b, [], none)

/-- Run a sequence of public operations, concatenating their event traces. -/
def runCalls (digest : Digest) (env : Env) :
    List Call → AnalyticsState → AnalyticsState × List Ev
  | [], st => (st, [])
  | c :: cs, st =>
    match runCall digest env st c with
    | (st', evs, _) =>
      match runCalls digest env cs st' with
      | (st'', evs') => (st'', evs ++ evs')

/-- Checks, along a trace, that every run of the sanitize hook read a cache
value that some earlier cache update (or a write already available before the
trace, listed in avail) had written: the hook never sees an absent cache and
only ever sees values produced by the redaction recompute. -/
def sanOK (avail : List String) : List Ev → Bool
  | [] => true
  | Ev.cacheUpdate loc :: rest => sanOK (loc :: avail) rest
  | Ev.sanitizeRun c :: rest =>
    (match c with
     | some loc => avail.contains loc
     | none => false) && sanOK avail rest
  | _ :: rest => sanOK avail rest

/-- An interleaving of two event traces, preserving the order within each:
the concurrency model for overlapping track calls (single logical thread,
cooperative suspension). -/
inductive Interleave : List Ev → List Ev → List Ev → Prop where
  | nil : Interleave [] [] []
  | left {l1 l2 l} (a : Ev) : Interleave l1 l2 l → Interleave (a :: l1) l2 (a :: l)
  | right {l1 l2 l} (a : Ev) : Interleave l1 l2 l → Interleave l1 (a :: l2) (a :: l)

/-- The public operations that go through capture (the three track calls)
together with the tier switch; identifyUser and init are excluded. -/
def isTrackOp : Call → Bool
  | Call.cTrackAnonymousEvent _ _ => true
  | Call.cTrackPseudonymousEvent _ _ => true
  | Call.cTrackRoomEvent _ _ _ => true
  | Call.cSetOnlyTrackAnonymousEvents _ => true
  | _ => false

/-- One string occurs inside another. -/
def containsStr (t s : String) : Prop := ∃ a b, t = a ++ s ++ b

/-- A digest stub whose output is the single byte 0, so that every hashHex
call returns "00". -/
def digest0 : Digest := fun _ => Except.ok [0]

/-- A digest stub that always fails, modelling an input that cannot be
encoded/hashed. -/
def digestFail : Digest := fun _ => Except.error "encode failure"

/-- An empty properties object. -/
def props0 : Props := fun _ => none

/-- A browser environment with a room URL and no do-not-track signal. -/
def envRoom : Env :=
  { doNotTrack := false, posthogConfig := true, origin := "https://x",
    hash := "#/room/secretroomid", pathname := "/" }

/-- A browser environment with the do-not-track signal set. -/
def envDNT : Env :=
  { doNotTrack := true, posthogConfig := true, origin := "https://x",
    hash := "#/room/secretroomid", pathname := "/" }

/-- A pipeline that was initialised while pseudonymous tracking is allowed. -/
def stPseudoTier : AnalyticsState :=
  { onlyTrackAnonymousEvents := false, initialised := true,
    redactedCurrentLocation := none }

/-- Under the Anonymous tier the per-part loop always succeeds and replaces
every part by the constant marker. -/
theorem redactParts_anon (digest : Digest) (parts : List String) :
    redactParts digest Anonymity.Anonymous parts
      = Except.ok (parts.map (fun _ => "<redacted>")) := by
  induction parts with
  | nil => rfl
  | cons p ps ih => simp [redactParts, ih]

/-- Under the Pseudonymous tier a successful per-part loop returns exactly the
hashHex digests of the parts, pointwise. -/
theorem redactParts_pseudo (digest : Digest) :
    ∀ parts ps, redactParts digest Anonymity.Pseudonymous parts = Except.ok ps →
      List.Forall₂ (fun p r => hashHex digest p = Except.ok r) parts ps := by
  intro parts
  induction parts with
  | nil =>
    intro ps h
    simp only [redactParts] at h
    cases h
    exact List.Forall₂.nil
  | cons p rest ih =>
    intro ps h
    simp only [redactParts] at h
    cases hh : hashHex digest p with
    | error e => rw [hh] at h; cases h
    | ok r =>
      rw [hh] at h
      cases hr : redactParts digest Anonymity.Pseudonymous rest with
      | error e => rw [hr] at h; cases h
      | ok rs =>
        rw [hr] at h
        cases h
        exact List.Forall₂.cons hh (ih rs hr)

/-- Shape of getRedactedCurrentLocation once the split of the fragment is
known: the output is the origin, the (possibly replaced) pathname, the
leading token, the (possibly replaced) screen, and the redacted parts. -/
theorem getRedacted_shape (digest : Digest) (origin hash pathname : String)
    (anonymity : Anonymity) (u s : String) (parts : List String)
    (hsplit : splitJS hash = u :: s :: parts) :
    getRedactedCurrentLocation digest origin hash pathname anonymity =
      match redactParts digest anonymity parts with
      | Except.error e => Except.error e
      | Except.ok ps =>
        Except.ok (origin
          ++ (if startsWithJS origin "file://" then "/<redacted_file_scheme_url>/" else pathname)
          ++ (u ++ "/"
              ++ (if knownScreens.contains s then s else "<redacted_screen_name>")
              ++ "/" ++ joinSlash ps)) := by
  simp only [getRedactedCurrentLocation, hsplit, List.headD, List.drop, List.getElem?_cons_succ,
    List.getElem?_cons_zero]

/-- Claim C7: for every input fragment whose screen-name segment is not in the
known-screen set, the output's screen field is the fixed placeholder
"<redacted_screen_name>" regardless of tier; a known screen name is preserved
verbatim. -/
theorem c7_screen_field (digest : Digest) (origin hash pathname : String)
    (anonymity : Anonymity) (u s : String) (parts : List String) (out : String)
    (hsplit : splitJS hash = u :: s :: parts)
    (hout : getRedactedCurrentLocation digest origin hash pathname anonymity = Except.ok out) :
    (knownScreens.contains s = false →
      ∃ pn trailing, out = origin ++ pn ++ (u ++ "/" ++ "<redacted_screen_name>" ++ "/" ++ trailing))
    ∧ (knownScreens.contains s = true →
      ∃ pn trailing, out = origin ++ pn ++ (u ++ "/" ++ s ++ "/" ++ trailing)) := by
  rw [getRedacted_shape digest origin hash pathname anonymity u s parts hsplit] at hout
  cases hrp : redactParts digest anonymity parts with
  | error e => rw [hrp] at hout; cases hout
  | ok ps =>
    rw [hrp] at hout
    cases hout
    constructor
    · intro hks
      exact ⟨(if startsWithJS origin "file://" then "/<redacted_file_scheme_url>/" else pathname),
             joinSlash ps, by rw [hks]; rfl⟩
    · intro hks
      exact ⟨(if startsWithJS origin "file://" then "/<redacted_file_scheme_url>/" else pathname),
             joinSlash ps, by rw [hks]; rfl⟩

/-- Claim C7 witness: an unknown screen "secretscreen" becomes the placeholder
on a concrete input. -/
theorem c7_witness :
    ∃ pn trailing,
      "https://x/#/<redacted_screen_name>/<redacted>"
        = "https://x" ++ pn ++ ("#" ++ "/" ++ "<redacted_screen_name>" ++ "/" ++ trailing) :=
  (c7_screen_field digest0 "https://x" "#/secretscreen/a" "/" Anonymity.Anonymous
    "#" "secretscreen" ["a"] "https://x/#/<redacted_screen_name>/<redacted>" rfl rfl).1 rfl

/-- Claim C8: a file:// origin forces the filesystem-path component of the
output to the fixed placeholder, for any tier; the output does not depend on
the raw pathname at all. -/
theorem c8_file_scheme (digest : Digest) (origin hash pathname pathname2 : String)
    (anonymity : Anonymity) (h : startsWithJS origin "file://" = true) :
    getRedactedCurrentLocation digest origin hash pathname anonymity
      = getRedactedCurrentLocation digest origin hash pathname2 anonymity
    ∧ ∀ out, getRedactedCurrentLocation digest origin hash pathname anonymity = Except.ok out →
        ∃ rest, out = origin ++ "/<redacted_file_scheme_url>/" ++ rest := by
  constructor
  · simp only [getRedactedCurrentLocation, h, if_true]
  · intro out hout
    simp only [getRedactedCurrentLocation, h, if_true] at hout
    cases hrp : redactParts digest anonymity ((splitJS hash).drop 2) with
    | error e => rw [hrp] at hout; cases hout
    | ok ps => rw [hrp] at hout; cases hout; exact ⟨_, rfl⟩

/-- Claim C8 witness: a concrete file:// origin with a PII-laden pathname
yields the placeholder path, and two different pathnames give the same
output. -/
theorem c8_witness :
    getRedactedCurrentLocation digest0 "file://" "#/room/a" "/home/alice/secret" Anonymity.Anonymous
      = getRedactedCurrentLocation digest0 "file://" "#/room/a" "/other" Anonymity.Anonymous
    ∧ ∃ rest, "file:///<redacted_file_scheme_url>/#/room/<redacted>"
        = "file://" ++ "/<redacted_file_scheme_url>/" ++ rest :=
  ⟨(c8_file_scheme digest0 "file://" "#/room/a" "/home/alice/secret" "/other"
      Anonymity.Anonymous rfl).1,
   (c8_file_scheme digest0 "file://" "#/room/a" "/home/alice/secret" "/other"
      Anonymity.Anonymous rfl).2
     "file:///<redacted_file_scheme_url>/#/room/<redacted>" rfl⟩

/-- Claim C2 counterexample: the claim also asserts that under the Anonymous
tier the output never contains the original trailing-segment value; for the
fragment "#/room/room" the trailing segment "room" coincides with the
preserved known screen name, so the output does contain it. -/
theorem c2_counterexample :
    splitJS "#/room/room" = ["#", "room", "room"]
    ∧ getRedactedCurrentLocation digest0 "https://x" "#/room/room" "/" Anonymity.Anonymous
        = Except.ok "https://x/#/room/<redacted>"
    ∧ containsStr "https://x/#/room/<redacted>" "room" :=
  ⟨rfl, rfl, "https://x/#/", "/<redacted>", by rfl⟩

/-- Claim C2 as amended: every trailing segment is replaced by the fixed
marker "<redacted>" under Anonymous and by hashHex(segment) under
Pseudonymous; under Anonymous the trailing portion of the output is the
constant marker repeated, so it depends only on the number of segments and no
segment value flows into it (the original value can still appear elsewhere in
the output when it coincides with a preserved component, e.g. a known screen
name). -/
theorem c2_trailing_segment_redaction (digest : Digest)
    (origin hash pathname u s : String) (parts : List String)
    (hsplit : splitJS hash = u :: s :: parts) :
    getRedactedCurrentLocation digest origin hash pathname Anonymity.Anonymous
      = Except.ok (origin
          ++ (if startsWithJS origin "file://" then "/<redacted_file_scheme_url>/" else pathname)
          ++ (u ++ "/"
              ++ (if knownScreens.contains s then s else "<redacted_screen_name>")
              ++ "/" ++ joinSlash (parts.map (fun _ => "<redacted>"))))
    ∧ (∀ ps, redactParts digest Anonymity.Pseudonymous parts = Except.ok ps →
        List.Forall₂ (fun p r => hashHex digest p = Except.ok r) parts ps
        ∧ getRedactedCurrentLocation digest origin hash pathname Anonymity.Pseudonymous
            = Except.ok (origin
                ++ (if startsWithJS origin "file://" then "/<redacted_file_scheme_url>/" else pathname)
                ++ (u ++ "/"
                    ++ (if knownScreens.contains s then s else "<redacted_screen_name>")
                    ++ "/" ++ joinSlash ps))) := by
  constructor
  · rw [getRedacted_shape digest origin hash pathname Anonymity.Anonymous u s parts hsplit,
      redactParts_anon]
  · intro ps hps
    refine ⟨redactParts_pseudo digest parts ps hps, ?_⟩
    rw [getRedacted_shape digest origin hash pathname Anonymity.Pseudonymous u s parts hsplit,
      hps]

/-- Claim C2 witness: on a concrete fragment the Anonymous output carries the
marker and the Pseudonymous output carries the digest. -/
theorem c2_witness :
    getRedactedCurrentLocation digest0 "https://x" "#/room/secretroomid" "/" Anonymity.Anonymous
      = Except.ok ("https://x" ++ "/" ++ ("#" ++ "/" ++ "room" ++ "/" ++ "<redacted>"))
    ∧ getRedactedCurrentLocation digest0 "https://x" "#/room/secretroomid" "/" Anonymity.Pseudonymous
        = Except.ok ("https://x" ++ "/" ++ ("#" ++ "/" ++ "room" ++ "/" ++ "00")) :=
  ⟨(c2_trailing_segment_redaction digest0 "https://x" "#/room/secretroomid" "/"
      "#" "room" ["secretroomid"] rfl).1,
   ((c2_trailing_segment_redaction digest0 "https://x" "#/room/secretroomid" "/"
      "#" "room" ["secretroomid"] rfl).2 ["00"] rfl).2⟩

/-- Claim C10: sanitizeProperties touches at most the six listed keys, always
overwrites $current_url with the cached redacted location, and nulls the four
referrer keys and the device id exactly when only anonymous tracking is
allowed; with pseudonymous tracking permitted those five keys pass through
untouched. -/
theorem c10_sanitize_frame (st : AnalyticsState) (properties : Props)
    (eventName : String) :
    (∀ k, k ∉ (["$current_url", "$referrer", "$referring_domain",
        "$initial_referrer", "$initial_referring_domain", "$device_id"] : List String) →
      sanitizeProperties st properties eventName k = properties k)
    ∧ sanitizeProperties st properties eventName "$current_url"
        = some (locToVal st.redactedCurrentLocation)
    ∧ (∀ k, k ∈ (["$referrer", "$referring_domain", "$initial_referrer",
        "$initial_referring_domain", "$device_id"] : List String) →
      sanitizeProperties st properties eventName k =
        if st.onlyTrackAnonymousEvents then some Val.vNull else properties k) := by
  refine ⟨?_, ?_, ?_⟩
  · intro k hk
    simp only [List.mem_cons, List.not_mem_nil, or_false, not_or] at hk
    obtain ⟨h1, h2, h3, h4, h5, h6⟩ := hk
    cases hflag : st.onlyTrackAnonymousEvents <;>
      simp [sanitizeProperties, setProp, hflag, h1, h2, h3, h4, h5, h6]
  · cases hflag : st.onlyTrackAnonymousEvents <;>
      simp [sanitizeProperties, setProp, hflag]
  · intro k hk
    simp only [List.mem_cons, List.not_mem_nil, or_false] at hk
    cases hflag : st.onlyTrackAnonymousEvents <;>
      rcases hk with rfl | rfl | rfl | rfl | rfl <;>
        simp [sanitizeProperties, setProp, hflag]

/-- Claim C10 witness: on a concrete state and properties object, an unrelated
key passes through, $current_url is overwritten, and $device_id passes
through when pseudonymous tracking is permitted. -/
theorem c10_witness :
    sanitizeProperties stPseudoTier props0 "e" "roomName" = props0 "roomName"
    ∧ sanitizeProperties stPseudoTier props0 "e" "$current_url"
        = some (locToVal stPseudoTier.redactedCurrentLocation)
    ∧ sanitizeProperties stPseudoTier props0 "e" "$device_id"
        = (if stPseudoTier.onlyTrackAnonymousEvents then some Val.vNull
           else props0 "$device_id") :=
  ⟨(c10_sanitize_frame stPseudoTier props0 "e").1 "roomName" (by decide),
   (c10_sanitize_frame stPseudoTier props0 "e").2.1,
   (c10_sanitize_frame stPseudoTier props0 "e").2.2 "$device_id" (by decide)⟩

/-- Claim C6: identifyUser under the Anonymous tier never invokes the sink's
identify; under the Pseudonymous tier it invokes it exactly once (a singleton
trace) with hashHex(userId), and the only id the sink can ever receive is the
digest of userId — the raw userId reaches it only in the degenerate case where
it equals its own digest. -/
theorem c6_identify (digest : Digest) (st : AnalyticsState) (userId : String) :
    (st.onlyTrackAnonymousEvents = true →
      identifyUser digest st userId = (st, [], none))
    ∧ (st.onlyTrackAnonymousEvents = false →
        (∀ h, hashHex digest userId = Except.ok h →
          (identifyUser digest st userId).2.1 = [Ev.sinkIdentify h])
        ∧ (∀ e, hashHex digest userId = Except.error e →
          (identifyUser digest st userId).2.1 = []))
    ∧ (∀ uid, Ev.sinkIdentify uid ∈ (identifyUser digest st userId).2.1 →
        hashHex digest userId = Except.ok uid) := by
  refine ⟨?_, ?_, ?_⟩
  · intro hflag
    simp [identifyUser, hflag]
  · intro hflag
    constructor
    · intro h hh
      simp [identifyUser, hflag, hh]
    · intro e he
      simp [identifyUser, hflag, he]
  · intro uid hmem
    unfold identifyUser at hmem
    cases hflag : st.onlyTrackAnonymousEvents with
    | true => rw [hflag] at hmem; simp at hmem
    | false =>
      rw [hflag] at hmem
      cases hh : hashHex digest userId with
      | error e => rw [hh] at hmem; simp at hmem
      | ok h =>
        rw [hh] at hmem
        simp at hmem
        simp [hmem]

/-- Claim C6 witness: with the Anonymous tier the sink identify is suppressed;
with the Pseudonymous tier it receives the digest "00" of the user id. -/
theorem c6_witness :
    identifyUser digest0 (setOnlyTrackAnonymousEvents stPseudoTier true) "@alice:x"
      = (setOnlyTrackAnonymousEvents stPseudoTier true, [], none)
    ∧ (identifyUser digest0 stPseudoTier "@alice:x").2.1 = [Ev.sinkIdentify "00"] :=
  ⟨(c6_identify digest0 (setOnlyTrackAnonymousEvents stPseudoTier true) "@alice:x").1 rfl,
   ((c6_identify digest0 stPseudoTier "@alice:x").2.1 rfl).1 "00" rfl⟩

/-- The state after capture has recomputed the redacted location for the
pseudonymous-room environment. -/
def stAfterRoom : AnalyticsState :=
  { onlyTrackAnonymousEvents := false, initialised := true,
    redactedCurrentLocation := some "https://x/#/room/00" }

/-- Claim C3 (evaluation at the failing input): an event sent through
trackAnonymousEvent while the tier flag permits pseudonymous tracking is handed
to the sink with a $current_url containing hashHex("secretroomid") — a stable
hashed identifier on an Anonymous-classed event.  The cause: capture passes the
event's anonymity to updateRedactedCurrentLocation, but that method takes no
parameter, so the argument is ignored and the tier flag selects Pseudonymous
redaction. -/
theorem c3_bug_eval :
    (trackAnonymousEvent digest0 envRoom stPseudoTier "my_anon_event" props0).2.1
      = [Ev.cacheUpdate "https://x/#/room/00",
         Ev.sanitizeRun (some "https://x/#/room/00"),
         Ev.sinkCapture "my_anon_event"
           (sanitizeProperties stAfterRoom props0 "my_anon_event")]
    ∧ sanitizeProperties stAfterRoom props0 "my_anon_event" "$current_url"
        = some (Val.vStr "https://x/#/room/00")
    ∧ hashHex digest0 "secretroomid" = Except.ok "00" :=
  ⟨rfl, rfl, rfl⟩

/-- A track operation run on a disabled pipeline leaves the pipeline disabled
and produces no events at all. -/
theorem runCall_trackOp_disabled (digest : Digest) (env : Env) (st : AnalyticsState)
    (c : Call) (hst : st.initialised = false) (hc : isTrackOp c = true) :
    (runCall digest env st c).1.initialised = false
    ∧ (runCall digest env st c).2.1 = [] := by
  cases c with
  | cInit b p => cases hc
  | cIdentifyUser uid => cases hc
  | cTrackAnonymousEvent n p =>
    simp [runCall, trackAnonymousEvent, capture, hst]
  | cTrackPseudonymousEvent n p =>
    cases hflag : st.onlyTrackAnonymousEvents <;>
      simp [runCall, trackPseudonymousEvent, capture, hst, hflag]
  | cTrackRoomEvent n rid p =>
    by_cases hrid : rid = ""
    · cases hflag : st.onlyTrackAnonymousEvents <;>
        simp [runCall, trackRoomEvent, trackPseudonymousEvent, capture, hst, hflag, hrid]
    · cases hh : hashHex digest rid <;>
        cases hflag : st.onlyTrackAnonymousEvents <;>
          simp [runCall, trackRoomEvent, trackPseudonymousEvent, capture, hst, hflag, hrid, hh]
  | cSetOnlyTrackAnonymousEvents b =>
    simp [runCall, setOnlyTrackAnonymousEvents, hst]

/-- Claim C4 counterexample: after init found the do-not-track signal the
pipeline is disabled, yet identifyUser (which checks only the tier flag, not
initialised) still invokes the sink's identify operation. -/
theorem c4_counterexample :
    isInitialised (init digest0 envDNT initialState false props0).1 = false
    ∧ (identifyUser digest0 (init digest0 envDNT initialState false props0).1 "@alice:x").2.1
        = [Ev.sinkIdentify "00"] :=
  ⟨rfl, rfl⟩

/-- Claim C4 as amended: once the pipeline is disabled, a sequence of
trackAnonymousEvent, trackPseudonymousEvent, trackRoomEvent and tier-switch
calls never has any effect on the sink (no events at all) and the pipeline
stays disabled; identifyUser is excluded since it checks only the tier flag
and can still reach the sink while disabled. -/
theorem c4_disabled_terminal_for_track (digest : Digest) (env : Env)
    (calls : List Call) (st : AnalyticsState)
    (hst : st.initialised = false) (hcalls : ∀ c ∈ calls, isTrackOp c = true) :
    (runCalls digest env calls st).1.initialised = false
    ∧ (runCalls digest env calls st).2 = [] := by
  induction calls generalizing st with
  | nil => exact ⟨hst, rfl⟩
  | cons c cs ih =>
    have hc := hcalls c (List.mem_cons_self c cs)
    obtain ⟨hini, hevs⟩ := runCall_trackOp_disabled digest env st c hst hc
    obtain ⟨ih1, ih2⟩ :=
      ih (runCall digest env st c).1 hini (fun c' hc' => hcalls c' (List.mem_cons_of_mem c hc'))
    refine ⟨ih1, ?_⟩
    show (runCall digest env st c).2.1 ++ (runCalls digest env cs (runCall digest env st c).1).2 = []
    rw [hevs, ih2]
    rfl

/-- Claim C4 witness: a concrete disabled pipeline and a concrete sequence of
the three track calls produce no events. -/
theorem c4_witness :
    (runCalls digest0 envRoom
        [Call.cTrackAnonymousEvent "e" props0,
         Call.cTrackPseudonymousEvent "e" props0,
         Call.cTrackRoomEvent "e" "!r:x" props0] initialState).1.initialised = false
    ∧ (runCalls digest0 envRoom
        [Call.cTrackAnonymousEvent "e" props0,
         Call.cTrackPseudonymousEvent "e" props0,
         Call.cTrackRoomEvent "e" "!r:x" props0] initialState).2 = [] :=
  c4_disabled_terminal_for_track digest0 envRoom
    [Call.cTrackAnonymousEvent "e" props0,
     Call.cTrackPseudonymousEvent "e" props0,
     Call.cTrackRoomEvent "e" "!r:x" props0] initialState rfl
    (by intro c hc
        simp only [List.mem_cons, List.not_mem_nil, or_false] at hc
        rcases hc with rfl | rfl | rfl <;> rfl)

/-- Claim C5 counterexample: a failing digest during identifyUser sends
nothing to the sink, but the failure is not handled locally — the call's
promise rejects with the error, propagating it to any awaiting caller. -/
theorem c5_counterexample :
    (identifyUser digestFail stPseudoTier "@alice:x").2.1 = []
    ∧ (identifyUser digestFail stPseudoTier "@alice:x").2.2 = some "encode failure" :=
  ⟨rfl, rfl⟩

/-- Claim C5 as amended: when the digest fails, every enclosing call aborts
without sending anything to the sink (the raw value is never substituted);
however, only trackAnonymousEvent and trackPseudonymousEvent shield their
caller (the inner capture is not awaited, so its rejection is dropped), while
identifyUser and trackRoomEvent propagate the failure to the caller as a
rejected promise. -/
theorem c5_digest_failure (digest : Digest) (e : String)
    (hfail : ∀ bs, digest bs = Except.error e)
    (env : Env) (st : AnalyticsState) (uid eventName roomId : String)
    (properties : Props)
    (hflag : st.onlyTrackAnonymousEvents = false)
    (hinit : st.initialised = true)
    (hparts : ∃ u s p ps, splitJS env.hash = u :: s :: p :: ps)
    (hrid : roomId ≠ "") :
    ((identifyUser digest st uid).2.1 = []
      ∧ (identifyUser digest st uid).2.2 = some e)
    ∧ ((capture digest env st eventName properties Anonymity.Pseudonymous).2.1 = []
      ∧ (capture digest env st eventName properties Anonymity.Pseudonymous).2.2 = some e)
    ∧ ((trackPseudonymousEvent digest env st eventName properties).2.1 = []
      ∧ (trackPseudonymousEvent digest env st eventName properties).2.2 = none)
    ∧ ((trackAnonymousEvent digest env st eventName properties).2.1 = []
      ∧ (trackAnonymousEvent digest env st eventName properties).2.2 = none)
    ∧ ((trackRoomEvent digest env st eventName roomId properties).2.1 = []
      ∧ (trackRoomEvent digest env st eventName roomId properties).2.2 = some e) := by
  obtain ⟨u, s, p, ps, hsplit⟩ := hparts
  have hhash : ∀ x, hashHex digest x = Except.error e := by
    intro x
    simp [hashHex, hfail]
  have hred : getRedactedCurrentLocation digest env.origin env.hash env.pathname
      (currentAnonymity st) = Except.error e := by
    rw [show currentAnonymity st = Anonymity.Pseudonymous by
          simp [currentAnonymity, hflag],
      getRedacted_shape digest env.origin env.hash env.pathname
        Anonymity.Pseudonymous u s (p :: ps) hsplit]
    simp [redactParts, hhash]
  have hupd : updateRedactedCurrentLocation digest env st = Except.error e := by
    simp [updateRedactedCurrentLocation, hred]
  have hcap : capture digest env st eventName properties Anonymity.Pseudonymous
      = (st, [], some e) := by
    simp [capture, hinit, hupd]
  refine ⟨?_, ?_, ?_, ?_, ?_⟩
  · constructor <;> simp [identifyUser, hflag, hhash]
  · rw [hcap]; exact ⟨rfl, rfl⟩
  · constructor <;> simp [trackPseudonymousEvent, hflag, hcap]
  · have hcapA : capture digest env st eventName properties Anonymity.Anonymous
        = (st, [], some e) := by
      simp [capture, hinit, hupd]
    constructor <;> simp [trackAnonymousEvent, hcapA]
  · constructor <;> simp [trackRoomEvent, hrid, hhash]

/-- Claim C5 witness: the amended behavior at a concrete failing digest, user
id, room id and location. -/
theorem c5_witness :
    ((identifyUser digestFail stPseudoTier "@alice:x").2.1 = []
      ∧ (identifyUser digestFail stPseudoTier "@alice:x").2.2 = some "encode failure")
    ∧ ((capture digestFail envRoom stPseudoTier "evt" props0 Anonymity.Pseudonymous).2.1 = []
      ∧ (capture digestFail envRoom stPseudoTier "evt" props0 Anonymity.Pseudonymous).2.2
          = some "encode failure")
    ∧ ((trackPseudonymousEvent digestFail envRoom stPseudoTier "evt" props0).2.1 = []
      ∧ (trackPseudonymousEvent digestFail envRoom stPseudoTier "evt" props0).2.2 = none)
    ∧ ((trackAnonymousEvent digestFail envRoom stPseudoTier "evt" props0).2.1 = []
      ∧ (trackAnonymousEvent digestFail envRoom stPseudoTier "evt" props0).2.2 = none)
    ∧ ((trackRoomEvent digestFail envRoom stPseudoTier "evt" "!r:x" props0).2.1 = []
      ∧ (trackRoomEvent digestFail envRoom stPseudoTier "evt" "!r:x" props0).2.2
          = some "encode failure") :=
  c5_digest_failure digestFail "encode failure" (fun _ => rfl) envRoom stPseudoTier
    "@alice:x" "evt" "!r:x" props0 rfl rfl ⟨"#", "room", "secretroomid", [], rfl⟩
    (by decide)

theorem runCall_disabled_no_capture (digest : Digest) (env : Env) (st : AnalyticsState)
    (c : Call) (henv : env.doNotTrack = true) (hst : st.initialised = false) :
    (runCall digest env st c).1.initialised = false
    ∧ ∀ n p, Ev.sinkCapture n p ∉ (runCall digest env st c).2.1 := by
  cases c with
  | cInit b pv =>
    simp [runCall, init, henv]
  | cIdentifyUser uid =>
    cases hflag : st.onlyTrackAnonymousEvents
    · cases hh : hashHex digest uid <;> simp [runCall, identifyUser, hflag, hh, hst]
    · simp [runCall, identifyUser, hflag, hst]
  | cTrackAnonymousEvent n p =>
    simp [runCall, trackAnonymousEvent, capture, hst]
  | cTrackPseudonymousEvent n p =>
    cases hflag : st.onlyTrackAnonymousEvents <;>
      simp [runCall, trackPseudonymousEvent, capture, hst, hflag]
  | cTrackRoomEvent n rid p =>
    by_cases hrid : rid = ""
    · cases hflag : st.onlyTrackAnonymousEvents <;>
        simp [runCall, trackRoomEvent, trackPseudonymousEvent, capture, hst, hflag, hrid]
    · cases hh : hashHex digest rid <;>
        cases hflag : st.onlyTrackAnonymousEvents <;>
          simp [runCall, trackRoomEvent, trackPseudonymousEvent, capture, hst, hflag, hrid, hh]
  | cSetOnlyTrackAnonymousEvents b =>
    simp [runCall, setOnlyTrackAnonymousEvents, hst]

theorem runCalls_disabled_no_capture (digest : Digest) (env : Env)
    (henv : env.doNotTrack = true) :
    ∀ (calls : List Call) (st : AnalyticsState), st.initialised = false →
      (runCalls digest env calls st).1.initialised = false
      ∧ ∀ n p, Ev.sinkCapture n p ∉ (runCalls digest env calls st).2 := by
  intro calls
  induction calls with
  | nil => intro st hst; exact ⟨hst, by intro n p h; cases h⟩
  | cons c cs ih =>
    intro st hst
    obtain ⟨hini, hnc⟩ := runCall_disabled_no_capture digest env st c henv hst
    obtain ⟨ih1, ih2⟩ := ih (runCall digest env st c).1 hini
    refine ⟨ih1, ?_⟩
    intro n p hmem
    have : Ev.sinkCapture n p ∈
        (runCall digest env st c).2.1 ++ (runCalls digest env cs (runCall digest env st c).1).2 := hmem
    rcases List.mem_append.mp this with h | h
    · exact hnc n p h
    · exact ih2 n p h

/-- Claim C9 -/
theorem c9_do_not_track (digest : Digest) (env : Env) (st : AnalyticsState)
    (b : Bool) (pv : Props) (calls : List Call) (henv : env.doNotTrack = true) :
    isInitialised (init digest env st b pv).1 = false
    ∧ ∀ n p, Ev.sinkCapture n p ∉ (runCalls digest env calls (init digest env st b pv).1).2 := by
  have h1 : (init digest env st b pv).1.initialised = false := by
    simp [init, henv]
  exact ⟨h1, (runCalls_disabled_no_capture digest env henv calls (init digest env st b pv).1 h1).2⟩

/-- Claim C9 witness -/
theorem c9_witness :
    isInitialised (init digest0 envDNT initialState false props0).1 = false
    ∧ Ev.sinkCapture "e" props0 ∉
        (runCalls digest0 envDNT
          [Call.cTrackAnonymousEvent "e" props0, Call.cTrackPseudonymousEvent "e" props0,
           Call.cTrackRoomEvent "e" "!r:x" props0, Call.cIdentifyUser "u"]
          (init digest0 envDNT initialState false props0).1).2 :=
  ⟨(c9_do_not_track digest0 envDNT initialState false props0
      [Call.cTrackAnonymousEvent "e" props0, Call.cTrackPseudonymousEvent "e" props0,
       Call.cTrackRoomEvent "e" "!r:x" props0, Call.cIdentifyUser "u"] rfl).1,
   (c9_do_not_track digest0 envDNT initialState false props0
      [Call.cTrackAnonymousEvent "e" props0, Call.cTrackPseudonymousEvent "e" props0,
       Call.cTrackRoomEvent "e" "!r:x" props0, Call.cIdentifyUser "u"] rfl).2 "e" props0⟩

theorem sanOK_mono (l : List Ev) :
    ∀ (a a' : List String), (∀ x, x ∈ a → x ∈ a') →
      sanOK a l = true → sanOK a' l = true := by
  induction l with
  | nil => intro a a' _ _; rfl
  | cons e rest ih =>
    intro a a' hsub h
    cases e with
    | cacheUpdate loc =>
      exact ih (loc :: a) (loc :: a')
        (by intro x hx
            rcases List.mem_cons.mp hx with h' | h'
            · exact h' ▸ List.mem_cons_self loc a'
            · exact List.mem_cons_of_mem loc (hsub x h')) h
    | sanitizeRun c =>
      cases c with
      | none => simp [sanOK] at h
      | some loc =>
        simp only [sanOK, Bool.and_eq_true, List.elem_iff] at h ⊢
        obtain ⟨h1, h2⟩ := h
        exact ⟨hsub loc h1, ih a a' hsub h2⟩
    | sinkInit p => exact ih a a' hsub h
    | sinkCapture n p => exact ih a a' hsub h
    | sinkIdentify i => exact ih a a' hsub h

theorem interleave_sanOK {l1 l2 l : List Ev} (hI : Interleave l1 l2 l) :
    ∀ (a1 a2 : List String), sanOK a1 l1 = true → sanOK a2 l2 = true →
      sanOK (a1 ++ a2) l = true := by
  induction hI with
  | nil => intro a1 a2 _ _; rfl
  | left a hI ih =>
    intro a1 a2 h1 h2
    cases a with
    | cacheUpdate loc =>
      exact ih (loc :: a1) a2 h1 h2
    | sanitizeRun c =>
      cases c with
      | none => simp [sanOK] at h1
      | some loc =>
        simp only [sanOK, Bool.and_eq_true, List.elem_iff] at h1 ⊢
        exact ⟨List.mem_append.mpr (Or.inl h1.1), ih a1 a2 h1.2 h2⟩
    | sinkInit p => exact ih a1 a2 h1 h2
    | sinkCapture n p => exact ih a1 a2 h1 h2
    | sinkIdentify i => exact ih a1 a2 h1 h2
  | right a hI ih =>
    intro a1 a2 h1 h2
    cases a with
    | cacheUpdate loc =>
      have := ih a1 (loc :: a2) h1 h2
      exact sanOK_mono _ (a1 ++ loc :: a2) (loc :: (a1 ++ a2))
        (by intro x hx
            rcases List.mem_append.mp hx with h' | h'
            · exact List.mem_cons_of_mem loc (List.mem_append.mpr (Or.inl h'))
            · rcases List.mem_cons.mp h' with h'' | h''
              · exact h'' ▸ List.mem_cons_self loc (a1 ++ a2)
              · exact List.mem_cons_of_mem loc (List.mem_append.mpr (Or.inr h''))) this
    | sanitizeRun c =>
      cases c with
      | none => simp [sanOK] at h2
      | some loc =>
        simp only [sanOK, Bool.and_eq_true, List.elem_iff] at h2 ⊢
        exact ⟨List.mem_append.mpr (Or.inr h2.1), ih a1 a2 h1 h2.2⟩
    | sinkInit p => exact ih a1 a2 h1 h2
    | sinkCapture n p => exact ih a1 a2 h1 h2
    | sinkIdentify i => exact ih a1 a2 h1 h2

theorem updateRedacted_ok (digest : Digest) (env : Env) (st st' : AnalyticsState)
    (loc : String)
    (h : updateRedactedCurrentLocation digest env st = Except.ok (st', loc)) :
    st' = { st with redactedCurrentLocation := some loc }
    ∧ getRedactedCurrentLocation digest env.origin env.hash env.pathname
        (currentAnonymity st) = Except.ok loc := by
  unfold updateRedactedCurrentLocation at h
  cases hg : getRedactedCurrentLocation digest env.origin env.hash env.pathname
      (currentAnonymity st) with
  | error e => rw [hg] at h; cases h
  | ok l => rw [hg] at h; cases h; exact ⟨rfl, rfl⟩

/-- Claim C1 -/
theorem c1_recompute_before_capture (digest : Digest) (env : Env) (st : AnalyticsState)
    (eventName : String) (properties : Props) (anonymity : Anonymity)
    (b : Bool) (pv : Props) :
    (sanOK [] (capture digest env st eventName properties anonymity).2.1 = true
     ∧ ∀ c, Ev.sanitizeRun c ∈ (capture digest env st eventName properties anonymity).2.1 →
        ∃ loc, c = some loc
          ∧ getRedactedCurrentLocation digest env.origin env.hash env.pathname
              (currentAnonymity st) = Except.ok loc)
    ∧ (sanOK [] (init digest env st b pv).2.1 = true
     ∧ ∀ c, Ev.sanitizeRun c ∈ (init digest env st b pv).2.1 →
        ∃ loc, c = some loc
          ∧ getRedactedCurrentLocation digest env.origin env.hash env.pathname
              (if b then Anonymity.Anonymous else Anonymity.Pseudonymous) = Except.ok loc)
    ∧ (∀ l1 l2 l a1 a2, Interleave l1 l2 l →
        sanOK a1 l1 = true → sanOK a2 l2 = true → sanOK (a1 ++ a2) l = true) := by
  refine ⟨?_, ?_, ?_⟩
  · cases hinit : st.initialised with
    | false => simp [capture, hinit, sanOK]
    | true =>
      cases hupd : updateRedactedCurrentLocation digest env st with
      | error e => simp [capture, hinit, hupd, sanOK]
      | ok r =>
        obtain ⟨st', loc⟩ := r
        obtain ⟨hst', hred⟩ := updateRedacted_ok digest env st st' loc hupd
        constructor
        · simp [capture, hinit, hupd, sanOK, hst', List.contains]
        · intro c hc
          simp only [capture, hinit, hupd] at hc
          simp at hc
          exact ⟨loc, by rw [hc, hst'], hred⟩
  · cases hdnt : env.doNotTrack with
    | true => simp [init, hdnt, sanOK]
    | false =>
      cases hcfg : env.posthogConfig with
      | false => simp [init, hdnt, hcfg, sanOK]
      | true =>
        cases hupd : updateRedactedCurrentLocation digest env
            { st with onlyTrackAnonymousEvents := b } with
        | error e => simp [init, hdnt, hcfg, hupd, sanOK]
        | ok r =>
          obtain ⟨st', loc⟩ := r
          obtain ⟨hst', hred⟩ := updateRedacted_ok digest env
            { st with onlyTrackAnonymousEvents := b } st' loc hupd
          constructor
          · simp [init, hdnt, hcfg, hupd, sanOK, hst', List.contains]
          · intro c hc
            simp only [init, hdnt, hcfg, hupd] at hc
            simp at hc
            refine ⟨loc, by rw [hc, hst'], ?_⟩
            have : currentAnonymity { st with onlyTrackAnonymousEvents := b }
                = (if b then Anonymity.Anonymous else Anonymity.Pseudonymous) := by
              simp [currentAnonymity]
            rw [← this]
            exact hred
  · intro l1 l2 l a1 a2 hI h1 h2
    exact interleave_sanOK hI a1 a2 h1 h2

/-- Claim C1 witness: on a concrete initialised pipeline, the capture trace
satisfies the ordering discipline; the merged trace of a concrete interleaving
does as well; and the sanitize run inside the capture trace read exactly the
freshly recomputed redacted location. -/
theorem c1_witness :
    sanOK [] (capture digest0 envRoom stPseudoTier "e" props0 Anonymity.Anonymous).2.1 = true
    ∧ (∃ loc, (some "https://x/#/room/00" : Option String) = some loc
        ∧ getRedactedCurrentLocation digest0 envRoom.origin envRoom.hash envRoom.pathname
            (currentAnonymity stPseudoTier) = Except.ok loc)
    ∧ sanOK ([] ++ []) [Ev.cacheUpdate "x", Ev.sanitizeRun (some "x")] = true :=
  ⟨(c1_recompute_before_capture digest0 envRoom stPseudoTier "e" props0 Anonymity.Anonymous
      false props0).1.1,
   (c1_recompute_before_capture digest0 envRoom stPseudoTier "e" props0 Anonymity.Anonymous
      false props0).1.2 (some "https://x/#/room/00")
     (List.mem_cons_of_mem _ (List.mem_cons_self _ _)),
   (c1_recompute_before_capture digest0 envRoom stPseudoTier "e" props0 Anonymity.Anonymous
      false props0).2.2
     [Ev.cacheUpdate "x", Ev.sanitizeRun (some "x")] []
     [Ev.cacheUpdate "x", Ev.sanitizeRun (some "x")] [] []
     (Interleave.left _ (Interleave.left _ Interleave.nil)) rfl rfl⟩
